import Mathlib

/-!
Shallow embedding of `src/api.py`, a Flask/SQLAlchemy quotes-and-votes API.

The relational state (tables `quote_model` and `vote_model` held in SQLite)
is modelled as lists of records in insertion order, together with the next
primary-key value each table will assign.  The four request handlers
(`Quotes.get`, `Quotes.post`, `Quote.delete`, `Vote.post`) are translated
as pure functions from that state; mutating handlers return the resulting
state alongside the HTTP outcome, so that "no state change on failure" is a
real theorem rather than a modelling artifact.

Modelling conventions, each noted at its definition:
- JSON (de)serialization of the `tags` column (`json.dumps`/`json.loads`)
  is modelled by the identity on the decoded list of strings; the column is
  `Option (List String)` with `none` standing for SQL NULL.
- `ORDER BY vote DESC` names no secondary key, so the code fixes the query
  result only up to `IsVoteDescOrder` (a vote-descending permutation of the
  table); the executable `rankQuotes` is one admissible linearization of
  that contract, kept so the handlers stay computable.  Claims about the
  order of vote ties are settled against the contract, not against the
  linearization the model happens to pick.
- Python `int(...)` on a query-string value is modelled by `parseIntArg`.
-/

/-- A row of the `quote_model` table (`QuoteModel` in `api.py`):
`id` integer primary key, `quote` text (UNIQUE, NOT NULL), `author` nullable,
`tags` nullable text column holding a JSON-encoded list (modelled decoded),
`vote` integer NOT NULL defaulting to 0. -/
structure QuoteRec where
  id : Nat
  quote : String
  author : Option String
  tags : Option (List String)
  vote : Nat
deriving DecidableEq, Repr

/-- A row of the `vote_model` table (`VoteModel` in `api.py`):
`id` integer primary key, `quote_id` foreign key into `quote_model`,
`ip_address` the voter identity string.  The table carries
`UNIQUE(quote_id, ip_address)`. -/
structure VoteRec where
  id : Nat
  quote_id : Nat
  ip_address : String
deriving DecidableEq, Repr

/-- The database state: the two tables in insertion order plus the next
primary key each will assign (SQLite rowid allocation, monotone here since
the operations below never delete the maximal id without our model's ids
staying fresh for the claims at hand). -/
structure DB where
  quotes : List QuoteRec
  votes : List VoteRec
  nextQuoteId : Nat
  nextVoteId : Nat
deriving DecidableEq, Repr

/-- The empty database produced by `db.create_all()`. -/
def DB.init : DB := { quotes := [], votes := [], nextQuoteId := 1, nextVoteId := 1 }

/-- The observable outcomes of a handler other than success: the three
`abort(...)` calls in `api.py` plus the storage-layer `IntegrityError`
that an unhandled `db.session.commit()` raises (surfacing as HTTP 500).
`duplicateText` is the spec's domain error for duplicate quote text; the
code never raises it, and it is included so that theorems can state this. -/
inductive ApiError where
  /-- `abort(404, message="Quote not found")` -/
  | notFound
  /-- `abort(403, message="You have already voted for this quote")` -/
  | alreadyVoted
  /-- `abort(400, ...)`: validation failure at the request boundary -/
  | badRequest
  /-- an uncaught storage-layer constraint violation (HTTP 500) -/
  | integrityError
  /-- the spec's DuplicateTextError; never produced by the code -/
  | duplicateText
deriving DecidableEq, Repr

deriving instance DecidableEq for Except

/-- The serialized view of a quote: `QuoteModel.as_dict` / the
`resource_fields` marshalling.  `tags` is exposed as a true list. -/
structure QuoteDict where
  id : Nat
  quote : String
  author : Option String
  tags : List String
  vote : Nat
deriving DecidableEq, Repr

/-- `QuoteModel.as_dict`: `json.loads(self.tags or "[]")` decodes the
nullable tags column, with NULL (and the empty string, not representable
here) read as the empty list. -/
def QuoteModel.as_dict (q : QuoteRec) : QuoteDict :=
  { id := q.id, quote := q.quote, author := q.author,
    tags := q.tags.getD [], vote := q.vote }

/-- Insert a quote into a list already sorted by `vote` descending, before
the first element whose `vote` is not larger.  Helper for `rankQuotes`. -/
def insertRanked (q : QuoteRec) : List QuoteRec → List QuoteRec
  | [] => [q]
  | r :: rs => if r.vote ≤ q.vote then q :: r :: rs else r :: insertRanked q rs

/-- `QuoteModel.query.order_by(QuoteModel.vote.desc())`, made executable:
one admissible linearization of the query's contract `IsVoteDescOrder`
(admissibility proved in `rankQuotes_isVoteDescOrder`).  The source pins
down only the `vote`-descending part; the relative order this function
gives to vote ties is a choice of the model, not a guarantee of the code,
and no theorem below relies on it when the claim is about tie order. -/
def rankQuotes : List QuoteRec → List QuoteRec
  | [] => []
  | q :: qs => insertRanked q (rankQuotes qs)

/-- `query.paginate(page=page, per_page=limit, error_out=False)`:
with `error_out=False` flask-sqlalchemy clamps `page < 1` to 1 and
`per_page < 1` to the library default of 20, then returns the slice
`items` and the full row count `total`. -/
def paginate (qs : List QuoteRec) (page limit : Int) : List QuoteRec × Nat :=
  let p : Int := if page < 1 then 1 else page
  let per : Int := if limit < 1 then 20 else limit
  (((qs.drop ((p - 1) * per).toNat).take per.toNat), qs.length)

/-- Everything `QuoteModel.query.order_by(QuoteModel.vote.desc())` enforces
about the result sequence: it consists of exactly the table's rows and is
weakly sorted by `vote` descending.  The SQL names no secondary key, so
the relative order of rows with equal `vote` is left to the storage
backend (SQLite documents it as arbitrary); every sequence satisfying
this predicate is an admissible query result. -/
def IsVoteDescOrder (table res : List QuoteRec) : Prop :=
  res.Perm table ∧ res.Pairwise (fun a b => b.vote ≤ a.vote)

/-- Digit run of a decimal numeral, most significant first, folded into an
accumulator.  `none` on the first non-digit character. -/
def parseDigits : List Char → Nat → Option Nat
  | [], acc => some acc
  | c :: cs, acc =>
      if 48 ≤ c.toNat ∧ c.toNat ≤ 57 then parseDigits cs (acc * 10 + (c.toNat - 48))
      else none

/-- Python `int(str)` applied to a query-string value: an optional sign
followed by one or more decimal digits (Python's tolerance for surrounding
whitespace and embedded underscores is not modelled; no route in the code
depends on it).  `none` models the `ValueError`. -/
def parseIntArg (s : String) : Option Int :=
  match s.data with
  | [] => none
  | '-' :: cs =>
      match cs with
      | [] => none
      | _ => (parseDigits cs 0).map (fun n => -(n : Int))
  | '+' :: cs =>
      match cs with
      | [] => none
      | _ => (parseDigits cs 0).map (fun n => (n : Int))
  | cs => (parseDigits cs 0).map (fun n => (n : Int))

/-- `Quotes.get`: reads `page` (default 1) and `limit` (default 10) from the
query string, coercing with Python `int(...)` (modelled by `parseIntArg`);
a `ValueError` on either aborts with 400.  Otherwise returns the paginated
vote-ranked listing and the total row count.  Read-only, so no state is
returned. -/
def Quotes.get (db : DB) (pageParam limitParam : Option String) :
    Except ApiError (List QuoteDict × Nat) :=
  let pageR : Option Int := match pageParam with
    | none => some 1
    | some s => parseIntArg s
  let limitR : Option Int := match limitParam with
    | none => some 10
    | some s => parseIntArg s
  match pageR, limitR with
  | some page, some limit =>
      let pr := paginate (rankQuotes db.quotes) page limit
      Except.ok (pr.1.map QuoteModel.as_dict, pr.2)
  | _, _ => Except.error ApiError.badRequest

/-- `Quotes.post`: `create_quote_args` requires the `quote` field to be
present (`required=True`; a missing field aborts 400) but performs no
non-empty check.  `tags` is stored as `json.dumps(args.get('tags') or [])`
(modelled decoded).  The new row gets `vote=0`.  `db.session.commit()`
raises an unhandled `IntegrityError` when the UNIQUE constraint on `quote`
is violated, leaving the store unchanged. -/
def Quotes.post (db : DB) (quoteField : Option String) (author : Option String)
    (tags : Option (List String)) : Except ApiError QuoteDict × DB :=
  match quoteField with
  | none => (Except.error ApiError.badRequest, db)
  | some text =>
      if db.quotes.any (fun q => q.quote == text) then
        (Except.error ApiError.integrityError, db)
      else
        let r : QuoteRec :=
          { id := db.nextQuoteId, quote := text, author := author,
            tags := some (tags.getD []), vote := 0 }
        (Except.ok (QuoteModel.as_dict r),
         { db with quotes := db.quotes ++ [r], nextQuoteId := db.nextQuoteId + 1 })

/-- `Quote.delete`: `QuoteModel.query.get(id)`; if absent, 404 with no
change.  Otherwise deletes all `VoteModel` rows with this `quote_id`, then
the quote, committing both, and returns the quote's last-known state. -/
def Quote.delete (db : DB) (id : Nat) : Except ApiError QuoteDict × DB :=
  match db.quotes.find? (fun q => q.id == id) with
  | none => (Except.error ApiError.notFound, db)
  | some q =>
      (Except.ok (QuoteModel.as_dict q),
       { db with quotes := db.quotes.filter (fun r => r.id != id),
                 votes := db.votes.filter (fun v => v.quote_id != id) })

/-- `quote.vote += 1` as it lands in the table: the row with the given id
gets its `vote` bumped, all other rows are untouched. -/
def incVote (id : Nat) (q : QuoteRec) : QuoteRec :=
  if q.id = id then { q with vote := q.vote + 1 } else q

/-- `Vote.post` (cast a vote): 404 if the quote is absent; the voter
identity is `request.remote_addr or 'unknown'`; 403 if a ballot for
`(quote_id, ip_address)` already exists; otherwise inserts the ballot and
increments the quote's `vote` in one commit, returning the updated quote. -/
def Vote.post (db : DB) (id : Nat) (remoteAddr : Option String) :
    Except ApiError QuoteDict × DB :=
  match db.quotes.find? (fun q => q.id == id) with
  | none => (Except.error ApiError.notFound, db)
  | some quote =>
      let ip := remoteAddr.getD "unknown"
      if db.votes.any (fun v => v.quote_id == id && v.ip_address == ip) then
        (Except.error ApiError.alreadyVoted, db)
      else
        let voteRec : VoteRec := { id := db.nextVoteId, quote_id := id, ip_address := ip }
        (Except.ok (QuoteModel.as_dict { quote with vote := quote.vote + 1 }),
         { db with
             quotes := db.quotes.map (incVote id),
             votes := db.votes ++ [voteRec],
             nextVoteId := db.nextVoteId + 1 })

/-- One client request against a mutating endpoint. -/
inductive Op where
  | submit (quoteField : Option String) (author : Option String) (tags : Option (List String))
  | cast (id : Nat) (remoteAddr : Option String)
  | remove (id : Nat)
deriving DecidableEq, Repr

/-- The state after one request: errors leave the database unchanged. -/
def applyOp (db : DB) : Op → DB
  | Op.submit q a t => (Quotes.post db q a t).2
  | Op.cast i r => (Vote.post db i r).2
  | Op.remove i => (Quote.delete db i).2

/-- The state after a sequence of requests starting from `db`. -/
def runOps (db : DB) (ops : List Op) : DB := ops.foldl applyOp db

/-- `VoteModel.query.filter_by(quote_id=id)` row count: the number of
ballots in the ledger referencing quote `id`. -/
def countBallots (db : DB) (id : Nat) : Nat :=
  (db.votes.filter (fun v => v.quote_id == id)).length

/-! ### Basic lemmas about the vote transaction -/

theorem incVote_id (id : Nat) (q : QuoteRec) : (incVote id q).id = q.id := by
  unfold incVote; split <;> rfl

theorem incVote_find? (l : List QuoteRec) (id : Nat) :
    (l.map (incVote id)).find? (fun q => q.id == id) =
      (l.find? (fun q => q.id == id)).map (incVote id) := by
  induction l with
  | nil => rfl
  | cons a l ih =>
    simp only [List.map_cons, List.find?_cons]
    by_cases h : a.id = id
    · simp [incVote_id, h]
    · have hb : (a.id == id) = false := by simp [h]
      simp [incVote_id, hb, ih]

theorem Vote.post_ok (db : DB) (id : Nat) (addr : Option String) (d : QuoteDict) (db1 : DB)
    (h : Vote.post db id addr = (Except.ok d, db1)) :
    ∃ q, db.quotes.find? (fun q => q.id == id) = some q ∧
      db.votes.any (fun v => v.quote_id == id && v.ip_address == addr.getD "unknown") = false ∧
      d = QuoteModel.as_dict { q with vote := q.vote + 1 } ∧
      db1 = { db with
        quotes := db.quotes.map (incVote id),
        votes := db.votes ++ [{ id := db.nextVoteId, quote_id := id,
                                ip_address := addr.getD "unknown" }],
        nextVoteId := db.nextVoteId + 1 } := by
  unfold Vote.post at h
  cases hf : db.quotes.find? (fun q => q.id == id) with
  | none => simp [hf] at h
  | some q =>
    simp only [hf] at h
    by_cases ha : db.votes.any (fun v => v.quote_id == id && v.ip_address == addr.getD "unknown") = true
    · simp [ha] at h
    · simp only [Bool.not_eq_true] at ha
      simp only [ha, Bool.false_eq_true, if_false] at h
      obtain ⟨h1, h2⟩ := Prod.mk.injEq .. ▸ h
      exact ⟨q, rfl, ha, (Except.ok.injEq .. ▸ h1).symm, h2.symm⟩

/-- C1: after a successful `castVote(q, v)`, a repeated `castVote(q, v)` with
the same voter identity fails with AlreadyVotedError (HTTP 403) and leaves
the state — the quote's `vote` counter and the vote ledger — unchanged. -/
theorem castVote_repeat_rejected_unchanged (db : DB) (id : Nat) (addr : Option String)
    (d : QuoteDict) (db1 : DB) (h : Vote.post db id addr = (Except.ok d, db1)) :
    Vote.post db1 id addr = (Except.error ApiError.alreadyVoted, db1) := by
  obtain ⟨q, hf, ha, hd, hdb⟩ := Vote.post_ok db id addr d db1 h
  have hfind : db1.quotes.find? (fun r => r.id == id) = some (incVote id q) := by
    rw [hdb]
    simp only [incVote_find?, hf]
    rfl
  have hany : (db1.votes.any
      (fun v => v.quote_id == id && v.ip_address == addr.getD "unknown")) = true := by
    rw [hdb]
    simp [List.any_append]
  unfold Vote.post
  simp [hfind, hany]

/-- C9: a successful `castVote` changes the quote store only by bumping the
target quote's `vote` by exactly 1: every row keeps its position, `id`,
`quote`, `author` and `tags`, and every row other than the target is
entirely unchanged. -/
theorem castVote_frame (db : DB) (id : Nat) (addr : Option String)
    (d : QuoteDict) (db1 : DB) (i : Nat)
    (h : Vote.post db id addr = (Except.ok d, db1))
    (hi : i < db.quotes.length) (hi1 : i < db1.quotes.length) :
    db1.quotes.length = db.quotes.length ∧
    db1.votes.length = db.votes.length + 1 ∧
    (db1.quotes[i]).id = (db.quotes[i]).id ∧
    (db1.quotes[i]).quote = (db.quotes[i]).quote ∧
    (db1.quotes[i]).author = (db.quotes[i]).author ∧
    (db1.quotes[i]).tags = (db.quotes[i]).tags ∧
    ((db.quotes[i]).id = id → (db1.quotes[i]).vote = (db.quotes[i]).vote + 1) ∧
    ((db.quotes[i]).id ≠ id → db1.quotes[i] = db.quotes[i]) := by
  obtain ⟨q, hf, ha, hd, hdb⟩ := Vote.post_ok db id addr d db1 h
  subst hdb
  have hmap : (db.quotes.map (incVote id))[i] = incVote id (db.quotes[i]) := by
    simp
  refine ⟨by simp, by simp, ?_⟩
  show ((db.quotes.map (incVote id))[i]).id = _ ∧ _
  rw [hmap]
  by_cases hqi : (db.quotes[i]).id = id
  · simp [incVote, hqi]
  · simp [incVote, hqi]

/-- C6: `removeQuote` on an existing quote returns its last-known state and
deletes exactly that quote and all ballots referencing it (no orphan
ballots survive), and a subsequent `castVote` on that id fails with
NotFound; on an absent id it fails with NotFound, deletes nothing, and
`castVote` on that id also fails with NotFound. -/
theorem removeQuote_spec (db : DB) (id id2 : Nat) (addr : Option String) (q : QuoteRec)
    (hsome : db.quotes.find? (fun r => r.id == id) = some q)
    (hnone : db.quotes.find? (fun r => r.id == id2) = none) :
    (Quote.delete db id).1 = Except.ok (QuoteModel.as_dict q) ∧
    (Quote.delete db id).2.quotes = db.quotes.filter (fun r => r.id != id) ∧
    (Quote.delete db id).2.votes = db.votes.filter (fun v => v.quote_id != id) ∧
    countBallots (Quote.delete db id).2 id = 0 ∧
    Vote.post (Quote.delete db id).2 id addr =
      (Except.error ApiError.notFound, (Quote.delete db id).2) ∧
    Quote.delete db id2 = (Except.error ApiError.notFound, db) ∧
    Vote.post db id2 addr = (Except.error ApiError.notFound, db) := by
  have hda : Quote.delete db id = (Except.ok (QuoteModel.as_dict q),
      { db with quotes := db.quotes.filter (fun r => r.id != id),
                votes := db.votes.filter (fun v => v.quote_id != id) }) := by
    unfold Quote.delete
    rw [hsome]
  have hfnone : ((Quote.delete db id).2.quotes.find? (fun r => r.id == id)) = none := by
    rw [hda]
    refine List.find?_eq_none.mpr ?_
    intro r hr
    have h2 := (List.mem_filter.mp hr).2
    simp only [bne_iff_ne, ne_eq] at h2
    simp [h2]
  refine ⟨by rw [hda], by rw [hda], by rw [hda], ?_, ?_, ?_, ?_⟩
  · rw [hda]
    show ((db.votes.filter fun v => v.quote_id != id).filter fun v => v.quote_id == id).length = 0
    rw [List.filter_filter]
    simp
  · unfold Vote.post
    simp [hfnone]
  · unfold Quote.delete
    simp [hnone]
  · unfold Vote.post
    simp [hnone]

/-! ### The reachable-state invariant: cached vote counts match the ledger -/

/-- Structural invariant of every reachable database state: primary keys of
stored quotes are below the allocator, the table is in id order, every
ballot references a stored quote (no orphans), and every quote's cached
`vote` equals the number of ballots referencing it. -/
def DBInv (db : DB) : Prop :=
  (∀ q ∈ db.quotes, q.id < db.nextQuoteId) ∧
  db.quotes.Pairwise (fun a b => a.id < b.id) ∧
  (∀ v ∈ db.votes, ∃ q ∈ db.quotes, q.id = v.quote_id) ∧
  (∀ q ∈ db.quotes, q.vote = countBallots db q.id)

theorem DBInv_init : DBInv DB.init := by
  refine ⟨?_, ?_, ?_, ?_⟩ <;> simp [DB.init]

theorem DBInv_post (db : DB) (qf a : Option String) (t : Option (List String))
    (h : DBInv db) : DBInv (Quotes.post db qf a t).2 := by
  obtain ⟨hbound, hsorted, href, hcount⟩ := h
  cases qf with
  | none => exact ⟨hbound, hsorted, href, hcount⟩
  | some text =>
    unfold Quotes.post
    by_cases hdup : db.quotes.any (fun q => q.quote == text) = true
    · simp only [hdup, if_true]
      exact ⟨hbound, hsorted, href, hcount⟩
    · simp only [Bool.not_eq_true] at hdup
      simp only [hdup, Bool.false_eq_true, if_false]
      refine ⟨?_, ?_, ?_, ?_⟩
      · intro q hq
        rcases List.mem_append.mp hq with hq | hq
        · exact Nat.lt_succ_of_lt (hbound q hq)
        · simp only [List.mem_singleton] at hq
          subst hq
          exact Nat.lt_succ_self _
      · refine List.pairwise_append.mpr ⟨hsorted, List.pairwise_singleton _ _, ?_⟩
        intro x hx y hy
        simp only [List.mem_singleton] at hy
        subst hy
        exact hbound x hx
      · intro v hv
        obtain ⟨q, hq, hid⟩ := href v hv
        exact ⟨q, List.mem_append_left _ hq, hid⟩
      · intro q hq
        rcases List.mem_append.mp hq with hq | hq
        · exact hcount q hq
        · simp only [List.mem_singleton] at hq
          subst hq
          show 0 = (db.votes.filter (fun v => v.quote_id == db.nextQuoteId)).length
          have hnil : db.votes.filter (fun v => v.quote_id == db.nextQuoteId) = [] := by
            refine List.filter_eq_nil_iff.mpr ?_
            intro v hv
            obtain ⟨q, hq, hid⟩ := href v hv
            have := hbound q hq
            simp only [beq_iff_eq]
            omega
          rw [hnil]
          rfl

theorem DBInv_cast (db : DB) (id : Nat) (addr : Option String)
    (h : DBInv db) : DBInv (Vote.post db id addr).2 := by
  obtain ⟨hbound, hsorted, href, hcount⟩ := h
  unfold Vote.post
  cases hf : db.quotes.find? (fun q => q.id == id) with
  | none => exact ⟨hbound, hsorted, href, hcount⟩
  | some q0 =>
    by_cases ha : db.votes.any
        (fun v => v.quote_id == id && v.ip_address == addr.getD "unknown") = true
    · simp only [ha, if_true]
      exact ⟨hbound, hsorted, href, hcount⟩
    · simp only [Bool.not_eq_true] at ha
      simp only [ha, Bool.false_eq_true, if_false]
      have hq0mem : q0 ∈ db.quotes := List.mem_of_find?_eq_some hf
      have hq0id : q0.id = id := by
        have := List.find?_some hf
        simpa using this
      refine ⟨?_, ?_, ?_, ?_⟩
      · intro q hq
        obtain ⟨p, hp, hpe⟩ := List.mem_map.mp hq
        subst hpe
        rw [incVote_id]
        exact hbound p hp
      · refine (List.pairwise_map).mpr ?_
        refine hsorted.imp ?_
        intro a b hab
        rw [incVote_id, incVote_id]
        exact hab
      · intro v hv
        rcases List.mem_append.mp hv with hv | hv
        · obtain ⟨q, hq, hid⟩ := href v hv
          exact ⟨incVote id q, List.mem_map_of_mem _ hq, by rw [incVote_id]; exact hid⟩
        · simp only [List.mem_singleton] at hv
          subst hv
          exact ⟨incVote id q0, List.mem_map_of_mem _ hq0mem, by rw [incVote_id, hq0id]⟩
      · intro q hq
        obtain ⟨p, hp, hpe⟩ := List.mem_map.mp hq
        subst hpe
        show (incVote id p).vote =
          ((db.votes ++ [({ id := db.nextVoteId, quote_id := id,
                            ip_address := addr.getD "unknown" } : VoteRec)]).filter
            (fun v => v.quote_id == (incVote id p).id)).length
        rw [incVote_id, List.filter_append, List.length_append]
        by_cases hpid : p.id = id
        · have hsingle : ([({ id := db.nextVoteId, quote_id := id,
                              ip_address := addr.getD "unknown" } : VoteRec)].filter
                (fun v => v.quote_id == p.id)).length = 1 := by
            simp [hpid]
          rw [hsingle]
          have : (incVote id p).vote = p.vote + 1 := by
            simp [incVote, hpid]
          rw [this]
          have := hcount p hp
          unfold countBallots at this
          omega
        · have hsingle : ([({ id := db.nextVoteId, quote_id := id,
                              ip_address := addr.getD "unknown" } : VoteRec)].filter
                (fun v => v.quote_id == p.id)).length = 0 := by
            simp only [List.filter_cons, List.filter_nil]
            have hne : (({ id := db.nextVoteId, quote_id := id,
                           ip_address := addr.getD "unknown" } : VoteRec).quote_id == p.id)
                = false := by
              simp
              omega
            simp [hne]
          rw [hsingle]
          have : incVote id p = p := by
            simp [incVote, hpid]
          rw [this]
          have := hcount p hp
          unfold countBallots at this
          omega

theorem DBInv_delete (db : DB) (id : Nat) (h : DBInv db) : DBInv (Quote.delete db id).2 := by
  obtain ⟨hbound, hsorted, href, hcount⟩ := h
  unfold Quote.delete
  cases hf : db.quotes.find? (fun q => q.id == id) with
  | none => exact ⟨hbound, hsorted, href, hcount⟩
  | some q0 =>
    refine ⟨?_, ?_, ?_, ?_⟩
    · intro q hq
      exact hbound q (List.mem_filter.mp hq).1
    · exact hsorted.filter _
    · intro v hv
      obtain ⟨hvmem, hvne⟩ := List.mem_filter.mp hv
      obtain ⟨q, hq, hid⟩ := href v hvmem
      refine ⟨q, List.mem_filter.mpr ⟨hq, ?_⟩, hid⟩
      simp only [bne_iff_ne, ne_eq]
      simp only [bne_iff_ne, ne_eq] at hvne
      omega
    · intro q hq
      obtain ⟨hqmem, hqne⟩ := List.mem_filter.mp hq
      simp only [bne_iff_ne, ne_eq] at hqne
      show q.vote = ((db.votes.filter (fun v => v.quote_id != id)).filter
        (fun v => v.quote_id == q.id)).length
      rw [List.filter_filter]
      have hpt : ∀ v ∈ db.votes,
          ((v.quote_id == q.id) && (v.quote_id != id)) = (v.quote_id == q.id) := by
        intro v hv
        by_cases hvq : v.quote_id = q.id
        · rw [hvq]
          have h2 : (q.id != id) = true := by
            simp only [bne_iff_ne, ne_eq]
            exact hqne
          simp [h2]
        · simp [hvq]
      rw [List.filter_congr hpt]
      exact hcount q hqmem

theorem DBInv_applyOp (db : DB) (op : Op) (h : DBInv db) : DBInv (applyOp db op) := by
  cases op with
  | submit q a t => exact DBInv_post db q a t h
  | cast i r => exact DBInv_cast db i r h
  | remove i => exact DBInv_delete db i h

theorem DBInv_runOps (ops : List Op) (db : DB) (h : DBInv db) : DBInv (runOps db ops) := by
  induction ops generalizing db with
  | nil => exact h
  | cons op ops ih => exact ih (applyOp db op) (DBInv_applyOp db op h)

/-- C2: in every state reachable from the empty database by any sequence of
submit, cast-vote and remove operations, every stored quote's cached `vote`
equals the number of ballots in the ledger referencing it. -/
theorem voteCount_matches_ledger (ops : List Op) (q : QuoteRec)
    (hq : q ∈ (runOps DB.init ops).quotes) :
    q.vote = countBallots (runOps DB.init ops) q.id :=
  (DBInv_runOps ops DB.init DBInv_init).2.2.2 q hq

/-! ### Ranked listing: ordering, permutation, pagination -/

theorem insertRanked_perm (q : QuoteRec) (s : List QuoteRec) :
    (insertRanked q s).Perm (q :: s) := by
  induction s with
  | nil => exact List.Perm.refl _
  | cons r rs ih =>
    unfold insertRanked
    by_cases h : r.vote ≤ q.vote
    · simp only [h, if_true]
      exact List.Perm.refl _
    · simp only [h, if_false]
      exact (ih.cons r).trans (List.Perm.swap q r rs)

theorem rankQuotes_perm (l : List QuoteRec) : (rankQuotes l).Perm l := by
  induction l with
  | nil => exact List.Perm.refl _
  | cons q qs ih =>
    exact (insertRanked_perm q (rankQuotes qs)).trans (ih.cons q)

theorem rankQuotes_length (l : List QuoteRec) : (rankQuotes l).length = l.length :=
  (rankQuotes_perm l).length_eq

/-- The deterministic ranking order the spec claims: strictly larger
`vote` first, and for equal `vote` the smaller `id` (earlier insertion)
first. -/
def rankLT (a b : QuoteRec) : Prop :=
  b.vote < a.vote ∨ (a.vote = b.vote ∧ a.id < b.id)

theorem insertRanked_sorted_vote (q : QuoteRec) (s : List QuoteRec)
    (hs : s.Pairwise (fun a b => b.vote ≤ a.vote)) :
    (insertRanked q s).Pairwise (fun a b => b.vote ≤ a.vote) := by
  induction s with
  | nil => exact List.pairwise_singleton _ _
  | cons r rs ih =>
    rw [List.pairwise_cons] at hs
    obtain ⟨hr, hrs⟩ := hs
    unfold insertRanked
    by_cases h : r.vote ≤ q.vote
    · simp only [h, if_true]
      refine List.pairwise_cons.mpr ⟨?_, List.pairwise_cons.mpr ⟨hr, hrs⟩⟩
      intro x hx
      rcases List.mem_cons.mp hx with hx | hx
      · subst hx
        exact h
      · exact Nat.le_trans (hr x hx) h
    · simp only [h, if_false]
      refine List.pairwise_cons.mpr ⟨?_, ih hrs⟩
      intro x hx
      rcases List.mem_cons.mp ((insertRanked_perm q rs).mem_iff.mp hx) with hx | hx
      · subst hx
        exact Nat.le_of_lt (Nat.lt_of_not_le h)
      · exact hr x hx

theorem rankQuotes_sorted_vote (l : List QuoteRec) :
    (rankQuotes l).Pairwise (fun a b => b.vote ≤ a.vote) := by
  induction l with
  | nil => exact List.Pairwise.nil
  | cons q qs ih => exact insertRanked_sorted_vote q (rankQuotes qs) ih

theorem rankQuotes_isVoteDescOrder (l : List QuoteRec) :
    IsVoteDescOrder l (rankQuotes l) :=
  ⟨rankQuotes_perm l, rankQuotes_sorted_vote l⟩

/-- C8: for every store and valid pageSize, a page beyond the available
range yields an empty item sequence together with the total count of all
stored quotes. -/
theorem listQuotes_beyond_range_empty (db : DB) (s u : String) (page limit : Int)
    (hs : parseIntArg s = some page) (hu : parseIntArg u = some limit)
    (hp : 1 ≤ page) (hl : 1 ≤ limit)
    (hbeyond : (db.quotes.length : Int) ≤ (page - 1) * limit) :
    Quotes.get db (some s) (some u) = Except.ok ([], db.quotes.length) := by
  unfold Quotes.get
  simp only [hs, hu]
  unfold paginate
  have h1 : ¬ page < 1 := by omega
  have h2 : ¬ limit < 1 := by omega
  have hdrop : (rankQuotes db.quotes).drop ((page - 1) * limit).toNat = [] := by
    refine List.drop_eq_nil_of_le ?_
    rw [rankQuotes_length]
    omega
  simp [h1, h2, hdrop, rankQuotes_length]

/-! ### Error handling of submission and pagination parameters -/

/-- C4 (amended): submitting a quote whose text equals an existing quote's
text makes the commit fail with the raw storage-layer uniqueness violation
— an uncaught IntegrityError surfacing as HTTP 500, not a translated
domain DuplicateTextError — and creates no record: the store is returned
unchanged. -/
theorem submitQuote_duplicate_raw_error (db : DB) (text : String)
    (a : Option String) (t : Option (List String))
    (hdup : db.quotes.any (fun q => q.quote == text) = true) :
    Quotes.post db (some text) a t = (Except.error ApiError.integrityError, db) := by
  unfold Quotes.post
  simp [hdup]

/-- C5 (amended): missing pagination values default to page = 1 and
pageSize = 10, and non-numeric values fail with a ValidationError
(HTTP 400); but non-positive values are NOT rejected — they are silently
clamped, page to 1 and pageSize to the backend default of 20. -/
theorem listQuotes_validation_behavior (db : DB) (s t v : String)
    (page lim lim2 : Int)
    (hs : parseIntArg s = none)
    (ht : parseIntArg t = some page) (hpage : page ≤ 0)
    (hv : parseIntArg v = some lim2) (hlim2 : lim2 ≤ 0)
    (u : String) (hu : parseIntArg u = some lim) (hlim : 1 ≤ lim) :
    Quotes.get db (some s) (some u) = Except.error ApiError.badRequest ∧
    Quotes.get db (some t) (some s) = Except.error ApiError.badRequest ∧
    Quotes.get db none none =
      Except.ok (((rankQuotes db.quotes).take 10).map QuoteModel.as_dict,
        db.quotes.length) ∧
    Quotes.get db (some t) (some u) =
      Except.ok (((rankQuotes db.quotes).take lim.toNat).map QuoteModel.as_dict,
        db.quotes.length) ∧
    Quotes.get db (some t) (some v) =
      Except.ok (((rankQuotes db.quotes).take 20).map QuoteModel.as_dict,
        db.quotes.length) := by
  have hp1 : page < 1 := by omega
  have hl1 : lim2 < 1 := by omega
  have hl2 : ¬ lim < 1 := by omega
  refine ⟨?_, ?_, ?_, ?_, ?_⟩
  · unfold Quotes.get
    simp [hs]
  · unfold Quotes.get
    simp [hs, ht]
  · unfold Quotes.get
    unfold paginate
    norm_num [rankQuotes_length]
    rfl
  · unfold Quotes.get
    simp only [ht, hu]
    unfold paginate
    simp only [if_pos hp1, if_neg hl2]
    norm_num [rankQuotes_length]
  · unfold Quotes.get
    simp only [ht, hv]
    unfold paginate
    simp only [if_pos hp1, if_pos hl1]
    norm_num [rankQuotes_length]
    rfl

/-- C7 (amended): only a missing `quote` field fails with a
ValidationError; the handler performs no non-empty-text check, so an empty
text (when not a duplicate) is accepted and creates a record; every
successful `submitQuote` returns the created quote with voteCount = 0. -/
theorem submitQuote_no_empty_check (db db1 : DB) (a : Option String)
    (t : Option (List String)) (text : String) (d : QuoteDict)
    (hempty : db.quotes.any (fun q => q.quote == "") = false)
    (hok : Quotes.post db (some text) a t = (Except.ok d, db1)) :
    Quotes.post db none a t = (Except.error ApiError.badRequest, db) ∧
    (Quotes.post db (some "") none none).1 =
      Except.ok ⟨db.nextQuoteId, "", none, [], 0⟩ ∧
    d.vote = 0 := by
  refine ⟨rfl, ?_, ?_⟩
  · unfold Quotes.post
    simp [hempty, QuoteModel.as_dict]
  · unfold Quotes.post at hok
    by_cases hdup : db.quotes.any (fun q => q.quote == text) = true
    · simp [hdup] at hok
    · simp only [Bool.not_eq_true] at hdup
      simp only [hdup, Bool.false_eq_true, if_false] at hok
      injection hok with h1 h2
      injection h1 with h3
      rw [← h3]
      rfl

/-- C10: tags round-trip through storage: a quote submitted with tag list
`t` is returned and read back with tags exactly `t`; submitted with tags
absent it is returned with the empty list; and a row whose tags column is
NULL is serialized with the empty list. -/
theorem tags_roundtrip (db : DB) (text : String) (a : Option String)
    (t : List String) (q : QuoteRec)
    (hdup : db.quotes.any (fun r => r.quote == text) = false)
    (hnull : q.tags = none) :
    (Quotes.post db (some text) a (some t)).1 =
      Except.ok ⟨db.nextQuoteId, text, a, t, 0⟩ ∧
    ((Quotes.post db (some text) a (some t)).2.quotes.getLast?).map
        (fun r => (QuoteModel.as_dict r).tags) = some t ∧
    (Quotes.post db (some text) a none).1 =
      Except.ok ⟨db.nextQuoteId, text, a, [], 0⟩ ∧
    (QuoteModel.as_dict q).tags = [] := by
  refine ⟨?_, ?_, ?_, ?_⟩
  · unfold Quotes.post
    simp [hdup, QuoteModel.as_dict]
  · unfold Quotes.post
    simp [hdup, QuoteModel.as_dict, List.getLast?_concat]
  · unfold Quotes.post
    simp [hdup, QuoteModel.as_dict]
  · simp [QuoteModel.as_dict, hnull]

/-! ### Concrete states and witnesses -/

/-- A store holding one quote "a" (id 1, no votes). -/
def dbOne : DB := runOps DB.init [Op.submit (some "a") none none]

/-- `dbOne` after one vote on quote 1 from address 7.7.7.7. -/
def dbOneVoted : DB :=
  runOps DB.init [Op.submit (some "a") none none, Op.cast 1 (some "7.7.7.7")]

/-- Two quotes submitted in order and never voted on: ids 1 and 2, both
with vote count 0 — a vote tie. -/
def dbTie : DB :=
  runOps DB.init [Op.submit (some "a") none none, Op.submit (some "b") none none]

theorem castVote_repeat_rejected_unchanged_witness :
    Vote.post dbOneVoted 1 (some "7.7.7.7") =
      (Except.error ApiError.alreadyVoted, dbOneVoted) :=
  castVote_repeat_rejected_unchanged dbOne 1 (some "7.7.7.7")
    ⟨1, "a", none, [], 1⟩ dbOneVoted (by decide)

theorem voteCount_matches_ledger_witness :
    (⟨1, "a", none, some [], 1⟩ : QuoteRec).vote =
      countBallots (runOps DB.init
        [Op.submit (some "a") none none, Op.cast 1 (some "7.7.7.7")])
        (⟨1, "a", none, some [], 1⟩ : QuoteRec).id :=
  voteCount_matches_ledger
    [Op.submit (some "a") none none, Op.cast 1 (some "7.7.7.7")]
    ⟨1, "a", none, some [], 1⟩ (by decide)

/-- C3: the claimed id-ascending tie-break is not enforced by the code.
With two stored quotes of equal vote count (ids 1 and 2, both vote 0),
both result orders satisfy everything the emitted query — `ORDER BY vote
DESC` with no secondary key — enforces, and the order listing id 2 before
id 1 violates the claimed deterministic ranking order `rankLT`; so
pagination over vote ties is not code-guaranteed deterministic. -/
theorem listQuotes_tie_order_unspecified :
    IsVoteDescOrder dbTie.quotes
      [⟨1, "a", none, some [], 0⟩, ⟨2, "b", none, some [], 0⟩] ∧
    IsVoteDescOrder dbTie.quotes
      [⟨2, "b", none, some [], 0⟩, ⟨1, "a", none, some [], 0⟩] ∧
    ¬ List.Pairwise rankLT
      [⟨2, "b", none, some [], 0⟩, ⟨1, "a", none, some [], 0⟩] := by
  have hq : dbTie.quotes =
      [⟨1, "a", none, some [], 0⟩, ⟨2, "b", none, some [], 0⟩] := by rfl
  refine ⟨⟨?_, ?_⟩, ⟨?_, ?_⟩, ?_⟩
  · rw [hq]
  · refine List.pairwise_cons.mpr ⟨?_, List.pairwise_singleton _ _⟩
    intro x hx
    rcases List.mem_cons.mp hx with hx | hx
    · subst hx
      exact Nat.le_refl _
    · simp at hx
  · rw [hq]
    exact List.Perm.swap _ _ _
  · refine List.pairwise_cons.mpr ⟨?_, List.pairwise_singleton _ _⟩
    intro x hx
    rcases List.mem_cons.mp hx with hx | hx
    · subst hx
      exact Nat.le_refl _
    · simp at hx
  · intro h
    have h1 := (List.pairwise_cons.mp h).1 _ (List.mem_cons_self _ _)
    simp [rankLT] at h1

theorem submitQuote_duplicate_raw_error_witness :
    Quotes.post dbOne (some "a") none none =
      (Except.error ApiError.integrityError, dbOne) :=
  submitQuote_duplicate_raw_error dbOne "a" none none (by decide)

/-- C4 counterexample: with quote "a" already stored, resubmitting "a"
surfaces the raw storage-layer IntegrityError, not the domain
DuplicateTextError the claim names. -/
theorem submitQuote_duplicate_counterexample :
    (Quotes.post dbOne (some "a") none none).1 ≠
      Except.error ApiError.duplicateText ∧
    (Quotes.post dbOne (some "a") none none).1 =
      Except.error ApiError.integrityError := by
  decide

theorem listQuotes_validation_behavior_witness :
    Quotes.get DB.init (some "x") (some "3") = Except.error ApiError.badRequest ∧
    Quotes.get DB.init (some "0") (some "x") = Except.error ApiError.badRequest ∧
    Quotes.get DB.init none none =
      Except.ok (((rankQuotes DB.init.quotes).take 10).map QuoteModel.as_dict,
        DB.init.quotes.length) ∧
    Quotes.get DB.init (some "0") (some "3") =
      Except.ok (((rankQuotes DB.init.quotes).take (3 : Int).toNat).map QuoteModel.as_dict,
        DB.init.quotes.length) ∧
    Quotes.get DB.init (some "0") (some "-2") =
      Except.ok (((rankQuotes DB.init.quotes).take 20).map QuoteModel.as_dict,
        DB.init.quotes.length) :=
  listQuotes_validation_behavior DB.init "x" "0" "-2" 0 3 (-2) (by decide) (by decide)
    (by decide) (by decide) (by decide) "3" (by decide) (by decide)

/-- C5 counterexample: the non-positive page value 0 is not rejected with a
ValidationError — the call succeeds (the value is silently clamped). -/
theorem listQuotes_nonpositive_counterexample :
    Quotes.get DB.init (some "0") (some "5") ≠ Except.error ApiError.badRequest ∧
    Quotes.get DB.init (some "0") (some "5") = Except.ok ([], 0) := by
  decide

theorem removeQuote_spec_witness :
    (Quote.delete dbOneVoted 1).1 =
      Except.ok (QuoteModel.as_dict ⟨1, "a", none, some [], 1⟩) ∧
    (Quote.delete dbOneVoted 1).2.quotes =
      dbOneVoted.quotes.filter (fun r => r.id != 1) ∧
    (Quote.delete dbOneVoted 1).2.votes =
      dbOneVoted.votes.filter (fun v => v.quote_id != 1) ∧
    countBallots (Quote.delete dbOneVoted 1).2 1 = 0 ∧
    Vote.post (Quote.delete dbOneVoted 1).2 1 (some "8.8.8.8") =
      (Except.error ApiError.notFound, (Quote.delete dbOneVoted 1).2) ∧
    Quote.delete dbOneVoted 2 = (Except.error ApiError.notFound, dbOneVoted) ∧
    Vote.post dbOneVoted 2 (some "8.8.8.8") =
      (Except.error ApiError.notFound, dbOneVoted) :=
  removeQuote_spec dbOneVoted 1 2 (some "8.8.8.8") ⟨1, "a", none, some [], 1⟩
    (by decide) (by decide)

theorem submitQuote_no_empty_check_witness :
    Quotes.post DB.init none none none = (Except.error ApiError.badRequest, DB.init) ∧
    (Quotes.post DB.init (some "") none none).1 = Except.ok ⟨1, "", none, [], 0⟩ ∧
    (⟨1, "a", none, [], 0⟩ : QuoteDict).vote = 0 :=
  submitQuote_no_empty_check DB.init dbOne none none "a" ⟨1, "a", none, [], 0⟩
    (by decide) (by decide)

/-- C7 counterexample: `submitQuote` with empty text does not fail with a
ValidationError — the empty string passes the presence-only check and is
stored as a quote with voteCount 0. -/
theorem submitQuote_empty_counterexample :
    (Quotes.post DB.init (some "") none none).1 ≠ Except.error ApiError.badRequest ∧
    Quotes.post DB.init (some "") none none =
      (Except.ok ⟨1, "", none, [], 0⟩,
       { quotes := [⟨1, "", none, some [], 0⟩], votes := [],
         nextQuoteId := 2, nextVoteId := 1 }) := by
  decide

theorem listQuotes_beyond_range_empty_witness :
    Quotes.get dbOne (some "5") (some "2") = Except.ok ([], dbOne.quotes.length) :=
  listQuotes_beyond_range_empty dbOne "5" "2" 5 2 (by decide) (by decide) (by decide)
    (by decide) (by decide)

theorem castVote_frame_witness :
    dbOneVoted.quotes.length = dbOne.quotes.length ∧
    (dbOneVoted.quotes.get ⟨0, by decide⟩).vote =
      (dbOne.quotes.get ⟨0, by decide⟩).vote + 1 := by
  have h := castVote_frame dbOne 1 (some "7.7.7.7") ⟨1, "a", none, [], 1⟩ dbOneVoted 0
    (by decide) (by decide) (by decide)
  exact ⟨h.1, h.2.2.2.2.2.2.1 (by decide)⟩

theorem tags_roundtrip_witness :
    (Quotes.post DB.init (some "a") none (some ["x", "y"])).1 =
      Except.ok ⟨1, "a", none, ["x", "y"], 0⟩ ∧
    ((Quotes.post DB.init (some "a") none (some ["x", "y"])).2.quotes.getLast?).map
        (fun r => (QuoteModel.as_dict r).tags) = some ["x", "y"] ∧
    (Quotes.post DB.init (some "a") none none).1 = Except.ok ⟨1, "a", none, [], 0⟩ ∧
    (QuoteModel.as_dict ⟨5, "z", none, none, 0⟩).tags = [] :=
  tags_roundtrip DB.init "a" none ["x", "y"] ⟨5, "z", none, none, 0⟩
    (by decide) (by decide)
